import Mathlib

/-!
A verification development for the BCUDP capture-analysis scripts
(pcap/analyze_json.py, pcap/analyze_pcap.py, pcap/compare_pcaps.py,
pcap/compare_stream_flow.py, pcap/simple_compare.py).

Bytes are modelled as natural numbers below 256 held in a `List Nat`.
Python slicing `l[a:b]` (which clamps and never reads out of bounds) is
`pySlice`.  `struct.unpack`, which raises when the buffer size differs
from the requested width, is modelled by `Except Unit`-valued readers:
`.error ()` stands for a raised `struct.error`.  `int.from_bytes`, which
is total, is modelled by the total functions `bytesLE` / `fromBytesI32LE`.
Timestamps, durations and rates (floats in the scripts) are modelled as
exact rationals.
-/

/-- Python slice `l[a:b]` for `a ≤ b`: clamps at the end of the list. -/
def pySlice (l : List Nat) (a b : Nat) : List Nat :=
  (l.drop a).take (b - a)

/-- Little-endian value of a byte list (as `int.from_bytes(bs, "little")`). -/
def bytesLE (bs : List Nat) : Nat :=
  bs.foldr (fun b acc => b + 256 * acc) 0

/-- Big-endian value of a byte list (as `int.from_bytes(bs, "big")`). -/
def bytesBE (bs : List Nat) : Nat :=
  bs.foldl (fun acc b => 256 * acc + b) 0

/-- Reinterpret an unsigned 32-bit value as a signed 32-bit integer. -/
def toSigned32 (n : Nat) : Int :=
  if n < 2147483648 then (n : Int) else (n : Int) - 4294967296

/-- `int.from_bytes(bs, "little", signed=True)` for 4-byte slices. -/
def fromBytesI32LE (bs : List Nat) : Int :=
  toSigned32 (bytesLE bs)

/-- `struct.unpack("<I", bs)`: little-endian u32, raising unless `bs` has
exactly 4 bytes. -/
def unpackU32LE (bs : List Nat) : Except Unit Nat :=
  if bs.length = 4 then .ok (bytesLE bs) else .error ()

/-- `struct.unpack(">I", bs)`: big-endian u32, raising unless `bs` has
exactly 4 bytes. -/
def unpackU32BE (bs : List Nat) : Except Unit Nat :=
  if bs.length = 4 then .ok (bytesBE bs) else .error ()

/-- `struct.unpack("<i", bs)`: little-endian signed 32-bit, raising unless
`bs` has exactly 4 bytes. -/
def unpackI32LE (bs : List Nat) : Except Unit Int :=
  if bs.length = 4 then .ok (fromBytesI32LE bs) else .error ()

/-- `struct.unpack(">H", bs)`: big-endian u16, raising unless `bs` has
exactly 2 bytes. -/
def unpackU16BE (bs : List Nat) : Except Unit Nat :=
  if bs.length = 2 then .ok (bytesBE bs) else .error ()

/-- `BCUDP_MAGIC_DISCOVERY` from the scripts. -/
def BCUDP_MAGIC_DISCOVERY : Nat := 0x3acf872a

/-- `BCUDP_MAGIC_DATA` from the scripts. -/
def BCUDP_MAGIC_DATA : Nat := 0x10cf872a

/-- `BCUDP_MAGIC_ACK` from the scripts. -/
def BCUDP_MAGIC_ACK : Nat := 0x20cf872a

/-- A decoded BCUDP packet: the variant tag plus the structured header
fields that the decoders extract (the raw-payload echoes kept in the
Python dicts carry no further information and are omitted). -/
inductive Bcudp where
  | discovery : Bcudp
  | data (connection_id : Int) (packet_id : Nat) (payload_len : Nat) : Bcudp
  | ack (connection_id : Int) (group_id : Nat) (packet_id : Nat) : Bcudp
deriving DecidableEq

/-- `parse_bcudp_packet` from compare_pcaps.py: the binary capture path.
The magic is read with `struct.unpack("<I", udp_payload[0:4])`, i.e.
little-endian; fields with guarded `struct.unpack` calls. -/
def parse_bcudp_packet (udp_payload : List Nat) : Except Unit (Option Bcudp) :=
  if udp_payload.length < 4 then .ok none else
  match unpackU32LE (pySlice udp_payload 0 4) with
  | .error e => .error e
  | .ok magic =>
    if magic = BCUDP_MAGIC_DISCOVERY then .ok (some .discovery)
    else if magic = BCUDP_MAGIC_DATA then
      if udp_payload.length < 20 then .ok none else
      match unpackI32LE (pySlice udp_payload 4 8) with
      | .error e => .error e
      | .ok connection_id =>
        match unpackU32LE (pySlice udp_payload 12 16) with
        | .error e => .error e
        | .ok packet_id =>
          match unpackU32LE (pySlice udp_payload 16 20) with
          | .error e => .error e
          | .ok payload_len => .ok (some (.data connection_id packet_id payload_len))
    else if magic = BCUDP_MAGIC_ACK then
      if udp_payload.length < 28 then .ok none else
      match unpackI32LE (pySlice udp_payload 4 8) with
      | .error e => .error e
      | .ok connection_id =>
        match unpackU32LE (pySlice udp_payload 12 16) with
        | .error e => .error e
        | .ok group_id =>
          match unpackU32LE (pySlice udp_payload 16 20) with
          | .error e => .error e
          | .ok packet_id => .ok (some (.ack connection_id group_id packet_id))
    else .ok none

/-- `parse_bcudp_packet` from analyze_json.py, applied after `hex_to_bytes`:
the JSON hex-string path.  The whole body is wrapped in `try/except` that
returns `None`, so the function is total; the magic is read with
`struct.unpack(">I", data[0:4])`, i.e. big-endian, against the same
constants; fields with total `int.from_bytes` little-endian reads. -/
def parse_bcudp_json (data : List Nat) : Option Bcudp :=
  if data.length < 4 then none else
  let magic := bytesBE (pySlice data 0 4)
  if magic = BCUDP_MAGIC_DISCOVERY then some .discovery
  else if magic = BCUDP_MAGIC_DATA then
    if data.length < 20 then none else
    some (.data (fromBytesI32LE (pySlice data 4 8))
                (bytesLE (pySlice data 12 16))
                (bytesLE (pySlice data 16 20)))
  else if magic = BCUDP_MAGIC_ACK then
    if data.length < 28 then none else
    some (.ack (fromBytesI32LE (pySlice data 4 8))
               (bytesLE (pySlice data 12 16))
               (bytesLE (pySlice data 16 20)))
  else none

/-- `parse_bcudp_data` from compare_stream_flow.py: length check first,
then a big-endian magic read, then total little-endian field reads. -/
def parse_bcudp_data (data : List Nat) : Except Unit (Option Bcudp) :=
  if data.length < 20 then .ok none else
  match unpackU32BE (pySlice data 0 4) with
  | .error e => .error e
  | .ok magic =>
    if magic ≠ BCUDP_MAGIC_DATA then .ok none else
    .ok (some (.data (fromBytesI32LE (pySlice data 4 8))
                     (bytesLE (pySlice data 12 16))
                     (bytesLE (pySlice data 16 20))))

/-- `parse_bcudp_ack` from compare_stream_flow.py. -/
def parse_bcudp_ack (data : List Nat) : Except Unit (Option Bcudp) :=
  if data.length < 28 then .ok none else
  match unpackU32BE (pySlice data 0 4) with
  | .error e => .error e
  | .ok magic =>
    if magic ≠ BCUDP_MAGIC_ACK then .ok none else
    .ok (some (.ack (fromBytesI32LE (pySlice data 4 8))
                    (bytesLE (pySlice data 12 16))
                    (bytesLE (pySlice data 16 20))))

/-- ASCII hexadecimal digit test (0-9, a-f, A-F). -/
def isHexDigitCh (c : Char) : Bool :=
  (48 ≤ c.toNat && c.toNat ≤ 57) || (97 ≤ c.toNat && c.toNat ≤ 102) ||
    (65 ≤ c.toNat && c.toNat ≤ 70)

/-- Value of one hexadecimal digit. -/
def hexVal (c : Char) : Nat :=
  if c.toNat ≤ 57 then c.toNat - 48
  else if c.toNat ≤ 70 then c.toNat - 55
  else c.toNat - 87

/-- `hex_str.replace(":", "").replace(" ", "")` from `hex_to_bytes`. -/
def cleanHex (s : List Char) : List Char :=
  s.filter (fun c => c != ':' && c != ' ')

/-- ASCII whitespace as recognized by CPython (`Py_ISSPACE`): space, tab,
LF, VT, FF, CR. -/
def isPySpace (c : Char) : Bool :=
  c.toNat == 32 || c.toNat == 9 || c.toNat == 10 || c.toNat == 11 ||
    c.toNat == 12 || c.toNat == 13

/-- `bytes.fromhex` (Python ≥ 3.7 semantics): each byte is two immediately
adjacent hexadecimal digits; ASCII whitespace is skipped between bytes
(and at either end) but not between the two digits of one byte.  `none`
models the `ValueError` raised on any other character, on whitespace
splitting a digit pair, or on a trailing lone digit. -/
def fromhex : List Char → Option (List Nat)
  | [] => some []
  | c :: rest =>
    if isPySpace c then fromhex rest
    else
      match rest with
      | [] => none
      | d :: rest2 =>
        if isHexDigitCh c && isHexDigitCh d then
          (fromhex rest2).map (fun bs => (16 * hexVal c + hexVal d) :: bs)
        else none

/-- `hex_to_bytes` from analyze_json.py / compare_stream_flow.py: converts
the cleaned string with `bytes.fromhex`, and its bare `except` clause turns
any conversion error into the empty byte string. -/
def hex_to_bytes (s : List Char) : List Nat :=
  match fromhex (cleanHex s) with
  | some bs => bs
  | none => []

/-- The per-record packet decision of `extract_stream_packets` in
compare_stream_flow.py (lines 63-93): skip empty payload strings, convert
hex, skip records shorter than 4 bytes, then try the Data decoder and fall
back to the Ack decoder.  `Except` carries a hypothetical raised exception
out of the decoders; `.ok none` is a silently skipped record. -/
def process_record (payload_hex : List Char) : Except Unit (Option Bcudp) :=
  if payload_hex.isEmpty then .ok none else
  let bytes_data := hex_to_bytes payload_hex
  if bytes_data.length < 4 then .ok none else
  match parse_bcudp_data bytes_data with
  | .error e => .error e
  | .ok (some p) => .ok (some p)
  | .ok none =>
    match parse_bcudp_ack bytes_data with
    | .error e => .error e
    | .ok r => .ok r

/-- The record returned by `extract_udp_packet` in compare_pcaps.py.
The source renders the address octets as dotted strings; the octet lists
carry the same information. -/
structure UdpPkt where
  src_ip : List Nat
  dst_ip : List Nat
  src_port : Nat
  dst_port : Nat
  payload : List Nat
deriving DecidableEq

/-- `extract_udp_packet` from compare_pcaps.py. -/
def extract_udp_packet (packet_data : List Nat) : Except Unit (Option UdpPkt) :=
  if packet_data.length < 42 then .ok none else
  if packet_data.getD 14 0 ≠ 0x45 then .ok none else
  let ip_header := pySlice packet_data 14 34
  let src_ip := pySlice ip_header 12 16
  let dst_ip := pySlice ip_header 16 20
  if ip_header.getD 9 0 ≠ 17 then .ok none else
  let udp_header := pySlice packet_data 34 42
  match unpackU16BE (pySlice udp_header 0 2) with
  | .error e => .error e
  | .ok src_port =>
    match unpackU16BE (pySlice udp_header 2 4) with
    | .error e => .error e
    | .ok dst_port =>
      match unpackU16BE (pySlice udp_header 4 6) with
      | .error e => .error e
      | .ok udp_length =>
        .ok (some ⟨src_ip, dst_ip, src_port, dst_port,
                   pySlice packet_data 42 (42 + udp_length - 8)⟩)

/-- Variant tag recorded by the analyze_pcap.py frame loop. -/
inductive BcTag where
  | discovery : BcTag
  | ack : BcTag
  | data : BcTag
deriving DecidableEq

/-- The per-frame stage of `analyze_pcap` in analyze_pcap.py (lines 54-94):
length check, IPv4 check on `ip_header[0]`, protocol check on
`ip_header[9]`, then port extraction with
`struct.unpack(">H", ip_header[20:22])` / `ip_header[22:24]` — note that
`ip_header = packet_data[14:34]` holds only 20 bytes, so both slices are
empty — then BCUDP magic classification on the raw first four payload
bytes.  `.ok none` models a frame the loop silently skips. -/
def analyze_frame (packet_data : List Nat) : Except Unit (Option (Nat × Nat × BcTag)) :=
  if packet_data.length < 42 then .ok none else
  let ip_header := pySlice packet_data 14 34
  if ip_header.getD 0 0 ≠ 0x45 then .ok none else
  if ip_header.getD 9 0 ≠ 17 then .ok none else
  match unpackU16BE (pySlice ip_header 20 22) with
  | .error e => .error e
  | .ok src_port =>
    match unpackU16BE (pySlice ip_header 22 24) with
    | .error e => .error e
    | .ok dst_port =>
      let udp_data := packet_data.drop 42
      if udp_data.length < 4 then .ok none else
      let magic := udp_data.take 4
      if magic = [0x3a, 0xcf, 0x87, 0x2a] then .ok (some (src_port, dst_port, .discovery))
      else if magic = [0x20, 0xcf, 0x87, 0x2a] then .ok (some (src_port, dst_port, .ack))
      else if magic = [0x10, 0xcf, 0x87, 0x2a] then .ok (some (src_port, dst_port, .data))
      else .ok none

/-- `read_pcapng_block` from compare_pcaps.py, with the file handle
modelled as the remaining byte stream: returns the block type, the block
body (`block_length - 8` bytes) and the unread remainder of the stream,
or `none` at EOF / truncation / undersized length.  All
`struct.unpack("<I", ...)` calls are guarded by explicit length checks, so
they are modelled by the total `bytesLE`.  The trailing-length comparison
only prints a warning (see `block_warn`) and does not affect the result. -/
def read_pcapng_block (s : List Nat) : Option (Nat × List Nat × List Nat) :=
  let block_type_data := s.take 4
  if block_type_data.length < 4 then none else
  let block_type := bytesLE block_type_data
  let r1 := s.drop 4
  let block_length_data := r1.take 4
  if block_length_data.length < 4 then none else
  let block_length := bytesLE block_length_data
  if block_length < 12 then none else
  let r2 := r1.drop 4
  let block_body := r2.take (block_length - 8)
  if block_body.length < block_length - 8 then none else
  let r3 := r2.drop (block_length - 8)
  let trailing_length_data := r3.take 4
  if trailing_length_data.length < 4 then none else
  some (block_type, block_body, r3.drop 4)

/-- Whether `read_pcapng_block` prints the length-mismatch warning: the
trailing length word (read after the `block_length - 8` body bytes)
differs from the leading length. -/
def block_warn (s : List Nat) : Bool :=
  let block_length := bytesLE (pySlice s 4 8)
  decide (bytesLE (pySlice s block_length (block_length + 4)) ≠ block_length)

/-- The ascending sort applied to packet ids (`sorted(...)` in
compare_stream_flow.py line 134). -/
def sortAsc (l : List Nat) : List Nat :=
  List.insertionSort (· ≤ ·) l

/-- The gap scan of `analyze_stream_flow` (lines 135-139): over an already
sorted id list, record `(prev, next, next - prev)` for every adjacent pair
whose difference exceeds 1. -/
def gapsOfSorted : List Nat → List (Nat × Nat × Nat)
  | a :: b :: rest =>
    if b - a > 1 then (a, b, b - a) :: gapsOfSorted (b :: rest)
    else gapsOfSorted (b :: rest)
  | _ => []

/-- Gap detection of `analyze_stream_flow` (lines 133-139): sort the
observed ids ascending, then scan adjacent pairs. -/
def detect_gaps (pids : List Nat) : List (Nat × Nat × Nat) :=
  gapsOfSorted (sortAsc pids)

/-- The missing sub-range reported for each gap (line 143):
`prev + 1 .. next - 1`. -/
def missing_ranges (gaps : List (Nat × Nat × Nat)) : List (Nat × Nat) :=
  gaps.map (fun g => (g.1 + 1, g.2.1 - 1))

/-- `camera_data[-1]["time"] - camera_data[0]["time"]`: the timestamp span
of a packet group (call sites guard non-emptiness; floats modelled as
exact rationals). -/
def groupDuration (ts : List ℚ) : ℚ :=
  ts.getLast?.getD 0 - ts.head?.getD 0

/-- The packet rate of `analyze_stream_flow` (lines 149-150) and
`compare_streams` (lines 193-194): `count / duration if duration > 0
else 0`. -/
def packetRate (ts : List ℚ) : ℚ :=
  if 0 < groupDuration ts then (ts.length : ℚ) / groupDuration ts else 0

/-- The rate-anomaly flag of `compare_streams` (line 199):
`sc_rate < nl_rate * 0.5` (0.5 is exact in binary floating point). -/
def rate_flag (nl sc : List ℚ) : Bool :=
  decide (packetRate sc < packetRate nl * (1 / 2))

/-! ## Helper lemmas -/

theorem pySlice_length_eq (l : List Nat) (a b : Nat) (h : b ≤ l.length) :
    (pySlice l a b).length = b - a := by
  simp only [pySlice, List.length_take, List.length_drop]
  omega

theorem pySlice_pySlice (l : List Nat) (a b c d : Nat) (h : a + d ≤ b) :
    pySlice (pySlice l a b) c d = pySlice l (a + c) (a + d) := by
  unfold pySlice
  rw [List.drop_take, List.take_take, List.drop_drop]
  congr 1
  omega

theorem unpackU32LE_ok {bs : List Nat} (h : bs.length = 4) :
    unpackU32LE bs = .ok (bytesLE bs) := by
  simp [unpackU32LE, h]

theorem unpackU32BE_ok {bs : List Nat} (h : bs.length = 4) :
    unpackU32BE bs = .ok (bytesBE bs) := by
  simp [unpackU32BE, h]

theorem unpackI32LE_ok {bs : List Nat} (h : bs.length = 4) :
    unpackI32LE bs = .ok (fromBytesI32LE bs) := by
  simp [unpackI32LE, h]

theorem unpackU16BE_ok {bs : List Nat} (h : bs.length = 2) :
    unpackU16BE bs = .ok (bytesBE bs) := by
  simp [unpackU16BE, h]

/-! ## Claim theorems -/

/-- C1: the claim that the JSON hex-string path and the binary capture
path decode the same bytes to identical results is FALSE on the code: on
the on-wire discovery magic bytes `3a cf 87 2a` the JSON path (big-endian
magic read) classifies Discovery while the binary path (little-endian
magic read against the same constants) returns undecodable. -/
theorem json_and_binary_bcudp_paths_diverge :
    parse_bcudp_json [0x3a, 0xcf, 0x87, 0x2a] = some .discovery ∧
    parse_bcudp_packet [0x3a, 0xcf, 0x87, 0x2a] = .ok none :=
  ⟨rfl, rfl⟩

/-- C2: for every payload of at least 20 bytes whose first 4 bytes match
the Data magic constant (under the respective decoder's magic reading),
both BCUDP Data decoders are total (no exception) and return a Data packet
with `connection_id` the signed little-endian 32-bit value at offset 4,
`packet_id` the unsigned little-endian 32-bit value at offset 12, and
`payload_len` the unsigned little-endian 32-bit value at offset 16.
Determinism holds because both decoders are pure functions. -/
theorem bcudp_data_decode_correct (data : List Nat) (h20 : 20 ≤ data.length) :
    (bytesLE (pySlice data 0 4) = BCUDP_MAGIC_DATA →
      parse_bcudp_packet data =
        .ok (some (.data (fromBytesI32LE (pySlice data 4 8))
                         (bytesLE (pySlice data 12 16))
                         (bytesLE (pySlice data 16 20))))) ∧
    (bytesBE (pySlice data 0 4) = BCUDP_MAGIC_DATA →
      parse_bcudp_data data =
        .ok (some (.data (fromBytesI32LE (pySlice data 4 8))
                         (bytesLE (pySlice data 12 16))
                         (bytesLE (pySlice data 16 20))))) := by
  have h4 : ¬ data.length < 4 := by omega
  have hl20 : ¬ data.length < 20 := by omega
  have l04 : (pySlice data 0 4).length = 4 := pySlice_length_eq _ _ _ (by omega)
  have l48 : (pySlice data 4 8).length = 4 := pySlice_length_eq _ _ _ (by omega)
  have l1216 : (pySlice data 12 16).length = 4 := pySlice_length_eq _ _ _ (by omega)
  have l1620 : (pySlice data 16 20).length = 4 := pySlice_length_eq _ _ _ (by omega)
  constructor
  · intro hm
    simp [parse_bcudp_packet, h4, hl20, unpackU32LE_ok l04, unpackI32LE_ok l48,
      unpackU32LE_ok l1216, unpackU32LE_ok l1620, hm,
      BCUDP_MAGIC_DISCOVERY, BCUDP_MAGIC_DATA, BCUDP_MAGIC_ACK]
  · intro hm
    simp [parse_bcudp_data, hl20, unpackU32BE_ok l04, hm,
      BCUDP_MAGIC_DATA]

/-- Concrete instance of the C2 theorem: a 20-byte Data payload in each
magic byte order, with `connection_id = 1`, `packet_id = 2`,
`payload_len = 3`. -/
theorem bcudp_data_decode_correct_witness :
    parse_bcudp_packet
        [0x2a, 0x87, 0xcf, 0x10, 1, 0, 0, 0, 0, 0, 0, 0, 2, 0, 0, 0, 3, 0, 0, 0] =
      .ok (some (.data 1 2 3)) ∧
    parse_bcudp_data
        [0x10, 0xcf, 0x87, 0x2a, 1, 0, 0, 0, 0, 0, 0, 0, 2, 0, 0, 0, 3, 0, 0, 0] =
      .ok (some (.data 1 2 3)) :=
  ⟨(bcudp_data_decode_correct _ (by decide)).1 (by decide),
   (bcudp_data_decode_correct _ (by decide)).2 (by decide)⟩

/-- C4: the binary BCUDP decoder is total (it always returns a value,
never a raised exception — every byte access is through a clamped slice,
and every `struct.unpack` is reached only with a full-width slice, so no
read goes past the end of the buffer), and a payload whose magic matches
a variant but whose length is below that variant's minimum (20 for Data,
28 for Ack; 4 for Discovery is subsumed by the magic read itself) decodes
to the undecodable result, not an error.  The same holds for the
stream-flow Data/Ack decoders, whose length checks come first. -/
theorem bcudp_short_payload_safe (data : List Nat) :
    (∃ r, parse_bcudp_packet data = .ok r) ∧
    (data.length < 4 → parse_bcudp_packet data = .ok none) ∧
    (data.length < 20 → bytesLE (pySlice data 0 4) = BCUDP_MAGIC_DATA →
      parse_bcudp_packet data = .ok none) ∧
    (data.length < 28 → bytesLE (pySlice data 0 4) = BCUDP_MAGIC_ACK →
      parse_bcudp_packet data = .ok none) ∧
    (data.length < 20 → parse_bcudp_data data = .ok none) ∧
    (data.length < 28 → parse_bcudp_ack data = .ok none) := by
  refine ⟨?_, ?_, ?_, ?_, ?_, ?_⟩
  · by_cases h4 : data.length < 4
    · exact ⟨none, by simp [parse_bcudp_packet, h4]⟩
    · have l04 : (pySlice data 0 4).length = 4 := pySlice_length_eq _ _ _ (by omega)
      by_cases hd : bytesLE (pySlice data 0 4) = BCUDP_MAGIC_DISCOVERY
      · exact ⟨some .discovery, by simp [parse_bcudp_packet, h4, unpackU32LE_ok l04, hd]⟩
      · by_cases hda : bytesLE (pySlice data 0 4) = BCUDP_MAGIC_DATA
        · by_cases h20 : data.length < 20
          · exact ⟨none, by
              simp [parse_bcudp_packet, h4, unpackU32LE_ok l04, hd, hda, h20,
                BCUDP_MAGIC_DISCOVERY, BCUDP_MAGIC_DATA, BCUDP_MAGIC_ACK]⟩
          · have l48 : (pySlice data 4 8).length = 4 := pySlice_length_eq _ _ _ (by omega)
            have l1216 : (pySlice data 12 16).length = 4 := pySlice_length_eq _ _ _ (by omega)
            have l1620 : (pySlice data 16 20).length = 4 := pySlice_length_eq _ _ _ (by omega)
            exact ⟨some (.data (fromBytesI32LE (pySlice data 4 8))
                               (bytesLE (pySlice data 12 16))
                               (bytesLE (pySlice data 16 20))), by
              simp [parse_bcudp_packet, h4, unpackU32LE_ok l04, hd, hda, h20,
                unpackI32LE_ok l48, unpackU32LE_ok l1216, unpackU32LE_ok l1620,
                BCUDP_MAGIC_DISCOVERY, BCUDP_MAGIC_DATA, BCUDP_MAGIC_ACK]⟩
        · by_cases hak : bytesLE (pySlice data 0 4) = BCUDP_MAGIC_ACK
          · by_cases h28 : data.length < 28
            · exact ⟨none, by
                simp [parse_bcudp_packet, h4, unpackU32LE_ok l04, hd, hda, hak, h28,
                  BCUDP_MAGIC_DISCOVERY, BCUDP_MAGIC_DATA, BCUDP_MAGIC_ACK]⟩
            · have l48 : (pySlice data 4 8).length = 4 := pySlice_length_eq _ _ _ (by omega)
              have l1216 : (pySlice data 12 16).length = 4 := pySlice_length_eq _ _ _ (by omega)
              have l1620 : (pySlice data 16 20).length = 4 := pySlice_length_eq _ _ _ (by omega)
              exact ⟨some (.ack (fromBytesI32LE (pySlice data 4 8))
                                (bytesLE (pySlice data 12 16))
                                (bytesLE (pySlice data 16 20))), by
                simp [parse_bcudp_packet, h4, unpackU32LE_ok l04, hd, hda, hak, h28,
                  unpackI32LE_ok l48, unpackU32LE_ok l1216, unpackU32LE_ok l1620,
                  BCUDP_MAGIC_DISCOVERY, BCUDP_MAGIC_DATA, BCUDP_MAGIC_ACK]⟩
          · exact ⟨none, by simp [parse_bcudp_packet, h4, unpackU32LE_ok l04, hd, hda, hak]⟩
  · intro h4
    simp [parse_bcudp_packet, h4]
  · intro h20 hm
    by_cases h4 : data.length < 4
    · simp [parse_bcudp_packet, h4]
    · have l04 : (pySlice data 0 4).length = 4 := pySlice_length_eq _ _ _ (by omega)
      simp [parse_bcudp_packet, h4, unpackU32LE_ok l04, hm, h20,
        BCUDP_MAGIC_DISCOVERY, BCUDP_MAGIC_DATA, BCUDP_MAGIC_ACK]
  · intro h28 hm
    by_cases h4 : data.length < 4
    · simp [parse_bcudp_packet, h4]
    · have l04 : (pySlice data 0 4).length = 4 := pySlice_length_eq _ _ _ (by omega)
      simp [parse_bcudp_packet, h4, unpackU32LE_ok l04, hm, h28,
        BCUDP_MAGIC_DISCOVERY, BCUDP_MAGIC_DATA, BCUDP_MAGIC_ACK]
  · intro h20
    simp [parse_bcudp_data, h20]
  · intro h28
    simp [parse_bcudp_ack, h28]

/-- Concrete instances of the C4 theorem: 6-byte payloads carrying the
Data and Ack magic (little-endian byte order), and 3-byte inputs to the
stream-flow decoders, all decode to `.ok none`. -/
theorem bcudp_short_payload_safe_witness :
    parse_bcudp_packet [0x2a, 0x87, 0xcf, 0x10, 0, 0] = .ok none ∧
    parse_bcudp_packet [0x2a, 0x87, 0xcf, 0x20, 0, 0] = .ok none ∧
    parse_bcudp_data [1, 2, 3] = .ok none ∧
    parse_bcudp_ack [1, 2, 3] = .ok none :=
  ⟨(bcudp_short_payload_safe _).2.2.1 (by decide) (by decide),
   (bcudp_short_payload_safe _).2.2.2.1 (by decide) (by decide),
   (bcudp_short_payload_safe _).2.2.2.2.1 (by decide),
   (bcudp_short_payload_safe _).2.2.2.2.2 (by decide)⟩

/-- A 42-byte Ethernet/IPv4/UDP frame that passes all three header checks
of the analyze_pcap.py loop: link header zeros, version byte `0x45` at
offset 14, protocol 17 at offset 23 (= `ip_header[9]`). -/
def udpTestFrame : List Nat :=
  List.replicate 14 0 ++ [0x45] ++ List.replicate 8 0 ++ [17] ++ List.replicate 18 0

/-- C3: FALSE on the code — a code bug.  For EVERY frame that passes the
length, IPv4 and UDP-protocol checks, the legacy-format per-frame stage
raises `struct.error` instead of extracting the ports: the source reads
the ports from `ip_header[20:22]` / `ip_header[22:24]`, but
`ip_header = packet_data[14:34]` holds only 20 bytes, so both slices are
empty and `struct.unpack(">H", ...)` raises.  The exception propagates out
of the stage, contradicting the claim that the stage returns a value or an
explicit nothing signal. -/
theorem analyze_pcap_port_read_raises (packet_data : List Nat)
    (h42 : 42 ≤ packet_data.length)
    (h45 : (pySlice packet_data 14 34).getD 0 0 = 0x45)
    (h17 : (pySlice packet_data 14 34).getD 9 0 = 17) :
    analyze_frame packet_data = .error () := by
  have h42n : ¬ packet_data.length < 42 := by omega
  have hip : (pySlice packet_data 14 34).length = 20 := pySlice_length_eq _ _ _ (by omega)
  have hdrop : (pySlice packet_data 14 34).drop 20 = [] :=
    List.drop_eq_nil_of_le (by omega)
  have hsl : pySlice (pySlice packet_data 14 34) 20 22 = [] := by
    calc pySlice (pySlice packet_data 14 34) 20 22
        = ((pySlice packet_data 14 34).drop 20).take 2 := rfl
      _ = [] := by rw [hdrop]; rfl
  rw [List.getD_eq_getElem?_getD] at h45 h17
  simp [analyze_frame, h42n, h45, h17, hsl, unpackU16BE]

/-- Concrete instance of the C3 theorem: the stage raises on a minimal
qualifying frame. -/
theorem analyze_pcap_port_read_raises_witness :
    analyze_frame udpTestFrame = .error () :=
  analyze_pcap_port_read_raises udpTestFrame (by decide) (by decide) (by decide)

/-- C5: gap detection sorts the observed Data packet ids ascending and
reports, for each adjacent pair of sorted ids differing by more than 1,
the pair with its difference, rendered as the missing sub-range
`prev+1 .. next-1`; on any arrival order of the ids `[1, 2, 4, 5]` it
reports exactly one gap with missing range `3 .. 3`. -/
theorem gap_detection_correct (l : List Nat) (h : l.Perm [1, 2, 4, 5]) :
    detect_gaps l = [(2, 4, 2)] ∧ missing_ranges (detect_gaps l) = [(3, 3)] := by
  have hs : sortAsc l = [1, 2, 4, 5] :=
    List.eq_of_perm_of_sorted ((List.perm_insertionSort _ l).trans h)
      (List.sorted_insertionSort _ l) (by decide)
  unfold detect_gaps
  rw [hs]
  exact ⟨rfl, rfl⟩

/-- Concrete instance of the C5 theorem at arrival order `[4, 1, 5, 2]`. -/
theorem gap_detection_correct_witness :
    detect_gaps [4, 1, 5, 2] = [(2, 4, 2)] ∧
      missing_ranges (detect_gaps [4, 1, 5, 2]) = [(3, 3)] :=
  gap_detection_correct _ (by decide)

/-- C6: the reported packet rate is count divided by the timestamp span
(last minus first) whenever that span is positive, and 0 when the span is
0 — in particular for a single packet, whose span is necessarily 0; 10
packets spanning 2.0 seconds yield rate 5.0. -/
theorem packet_rate_correct :
    (∀ ts : List ℚ,
      (0 < groupDuration ts → packetRate ts = (ts.length : ℚ) / groupDuration ts) ∧
      ((groupDuration ts = 0 ∨ ts.length ≤ 1) → packetRate ts = 0)) ∧
    packetRate [0, 1, 1, 1, 1, 1, 1, 1, 1, 2] = 5 := by
  constructor
  · intro ts
    constructor
    · intro h
      simp [packetRate, h]
    · intro h
      have hd : groupDuration ts = 0 := by
        rcases h with h | h
        · exact h
        · cases ts with
          | nil => simp [groupDuration]
          | cons a t =>
            cases t with
            | nil => simp [groupDuration]
            | cons b t2 => simp at h
      simp [packetRate, hd]
  · have hd : groupDuration [0, 1, 1, 1, 1, 1, 1, 1, 1, (2 : ℚ)] = 2 := by
      simp [groupDuration]
    norm_num [packetRate, hd]

/-- Concrete instances of the C6 theorem: two packets spanning 2 seconds
give rate count/span; a single packet gives rate 0. -/
theorem packet_rate_correct_witness :
    packetRate [(0 : ℚ), 2] = ((List.length [(0 : ℚ), 2] : ℚ) / groupDuration [(0 : ℚ), 2]) ∧
    packetRate [(3 : ℚ)] = 0 :=
  ⟨(packet_rate_correct.1 [0, 2]).1 (by norm_num [groupDuration]),
   (packet_rate_correct.1 [3]).2 (Or.inr (by norm_num))⟩

/-- C7: for two sessions whose remote-to-local Data lists are both
non-empty (so both rates are computed by `compare_streams`), the rate
anomaly is flagged exactly when the second session's rate is strictly
below half the first session's rate. -/
theorem rate_anomaly_flag_correct (nl sc : List ℚ) (_hnl : nl ≠ []) (_hsc : sc ≠ []) :
    rate_flag nl sc = true ↔ packetRate sc < packetRate nl / 2 := by
  unfold rate_flag
  rw [decide_eq_true_iff, mul_one_div]

/-- Concrete instance of the C7 theorem: session A with 2 packets over 2
seconds (rate 1), session B with 2 packets over 8 seconds (rate 1/4):
the anomaly is flagged. -/
theorem rate_anomaly_flag_correct_witness :
    rate_flag [(0 : ℚ), 2] [(0 : ℚ), 8] = true :=
  (rate_anomaly_flag_correct [(0 : ℚ), 2] [(0 : ℚ), 8] (by simp) (by simp)).mpr
    (by norm_num [packetRate, groupDuration])

/-- C8: the frame decoder yields nothing for frames shorter than 42
bytes, frames whose IPv4 version/header-length byte (offset 14) is not
`0x45`, and frames whose IP protocol field (`ip_header[9]`) is not 17;
frames passing all three checks yield a datagram whose addresses come from
the fixed IPv4 offsets, whose ports come from the first 4 bytes of the UDP
header read big-endian, and whose payload is the `udp_length - 8` byte
slice following the 8-byte UDP header. -/
theorem extract_udp_spec (packet_data : List Nat) :
    (packet_data.length < 42 → extract_udp_packet packet_data = .ok none) ∧
    (packet_data.getD 14 0 ≠ 0x45 → extract_udp_packet packet_data = .ok none) ∧
    ((pySlice packet_data 14 34).getD 9 0 ≠ 17 →
      extract_udp_packet packet_data = .ok none) ∧
    (42 ≤ packet_data.length → packet_data.getD 14 0 = 0x45 →
      (pySlice packet_data 14 34).getD 9 0 = 17 →
      extract_udp_packet packet_data =
        .ok (some ⟨pySlice packet_data 26 30, pySlice packet_data 30 34,
                   bytesBE (pySlice packet_data 34 36),
                   bytesBE (pySlice packet_data 36 38),
                   pySlice packet_data 42
                     (42 + bytesBE (pySlice packet_data 38 40) - 8)⟩)) := by
  refine ⟨?_, ?_, ?_, ?_⟩
  · intro h42
    simp [extract_udp_packet, h42]
  · intro h45
    by_cases h42 : packet_data.length < 42
    · simp [extract_udp_packet, h42]
    · rw [List.getD_eq_getElem?_getD] at h45
      simp [extract_udp_packet, h42, h45]
  · intro h17
    by_cases h42 : packet_data.length < 42
    · simp [extract_udp_packet, h42]
    · by_cases h45 : packet_data.getD 14 0 = 0x45
      · rw [List.getD_eq_getElem?_getD] at h45 h17
        simp [extract_udp_packet, h42, h45, h17]
      · rw [List.getD_eq_getElem?_getD] at h45
        simp [extract_udp_packet, h42, h45]
  · intro h42 h45 h17
    have h42n : ¬ packet_data.length < 42 := by omega
    rw [List.getD_eq_getElem?_getD] at h45 h17
    have i1216 : pySlice (pySlice packet_data 14 34) 12 16 = pySlice packet_data 26 30 :=
      pySlice_pySlice _ 14 34 12 16 (by omega)
    have i1620 : pySlice (pySlice packet_data 14 34) 16 20 = pySlice packet_data 30 34 :=
      pySlice_pySlice _ 14 34 16 20 (by omega)
    have u02 : pySlice (pySlice packet_data 34 42) 0 2 = pySlice packet_data 34 36 :=
      pySlice_pySlice _ 34 42 0 2 (by omega)
    have u24 : pySlice (pySlice packet_data 34 42) 2 4 = pySlice packet_data 36 38 :=
      pySlice_pySlice _ 34 42 2 4 (by omega)
    have u46 : pySlice (pySlice packet_data 34 42) 4 6 = pySlice packet_data 38 40 :=
      pySlice_pySlice _ 34 42 4 6 (by omega)
    have l3436 : (pySlice packet_data 34 36).length = 2 := pySlice_length_eq _ _ _ (by omega)
    have l3638 : (pySlice packet_data 36 38).length = 2 := pySlice_length_eq _ _ _ (by omega)
    have l3840 : (pySlice packet_data 38 40).length = 2 := pySlice_length_eq _ _ _ (by omega)
    simp [extract_udp_packet, h42n, h45, h17, i1216, i1620, u02, u24, u46,
      unpackU16BE_ok l3436, unpackU16BE_ok l3638, unpackU16BE_ok l3840]

/-- A 44-byte qualifying frame: addresses 10.0.0.1 → 10.0.0.2, ports
8000 → 9000, UDP length 10, 2 payload bytes `[7, 8]`. -/
def udpFrame44 : List Nat :=
  [0, 0, 0, 0, 0, 0, 0, 0, 0, 0, 0, 0, 0, 0,
   0x45, 0, 0, 0, 0, 0, 0, 0, 0, 17, 0, 0,
   10, 0, 0, 1, 10, 0, 0, 2,
   0x1f, 0x40, 0x23, 0x28, 0, 10, 0, 0,
   7, 8]

/-- Concrete instance of the C8 theorem on `udpFrame44`. -/
theorem extract_udp_spec_witness :
    extract_udp_packet udpFrame44 =
      .ok (some ⟨[10, 0, 0, 1], [10, 0, 0, 2], 8000, 9000, [7, 8]⟩) :=
  (extract_udp_spec udpFrame44).2.2.2 (by decide) (by decide) (by decide)

/-- C9: whenever the stream holds a complete block (leading length `L`
at least 12 and `L + 4` bytes available), the block reader consumes a body
of exactly `L - 8` bytes and returns the block decoded from the leading
length, regardless of the trailing length word; a trailing word differing
from `L` only sets the warning (`block_warn`), it does not abort. -/
theorem read_block_spec (s : List Nat) (L : Nat)
    (hL : bytesLE (pySlice s 4 8) = L) (h12 : 12 ≤ L) (hlen : L + 4 ≤ s.length) :
    read_pcapng_block s = some (bytesLE (s.take 4), pySlice s 8 L, s.drop (L + 4)) ∧
    (pySlice s 8 L).length = L - 8 ∧
    (block_warn s = true ↔ bytesLE (pySlice s L (L + 4)) ≠ L) := by
  have hL2 : bytesLE ((s.drop 4).take 4) = L := hL
  have c1 : ¬ (s.take 4).length < 4 := by
    simp only [List.length_take]
    omega
  have c2 : ¬ ((s.drop 4).take 4).length < 4 := by
    simp only [List.length_take, List.length_drop]
    omega
  have c3 : ¬ L < 12 := by omega
  have c4 : ¬ (((s.drop 4).drop 4).take (L - 8)).length < L - 8 := by
    simp only [List.length_take, List.length_drop, List.drop_drop]
    omega
  have c5 : ¬ ((((s.drop 4).drop 4).drop (L - 8)).take 4).length < 4 := by
    simp only [List.length_take, List.length_drop, List.drop_drop]
    omega
  refine ⟨?_, ?_, ?_⟩
  · have b1 : pySlice s 8 L = ((s.drop 4).drop 4).take (L - 8) := by
      simp [pySlice, List.drop_drop]
    have b2 : s.drop (L + 4) = (((s.drop 4).drop 4).drop (L - 8)).drop 4 := by
      simp only [List.drop_drop]
      congr 1
      omega
    rw [b1, b2]
    simp [read_pcapng_block, hL2, c1, c2, c3, c4, c5]
    omega
  · rw [pySlice_length_eq _ _ _ (by omega)]
  · simp only [block_warn, hL]
    rw [decide_eq_true_iff]

/-- Concrete instance of the C9 theorem: a 16-byte stream holding one
block of leading length 12, body `[9, 9, 9, 9]` and MISMATCHED trailing
length 13: the block is still returned and the warning fires. -/
theorem read_block_spec_witness :
    read_pcapng_block [6, 0, 0, 0, 12, 0, 0, 0, 9, 9, 9, 9, 13, 0, 0, 0] =
      some (6, [9, 9, 9, 9], []) ∧
    block_warn [6, 0, 0, 0, 12, 0, 0, 0, 9, 9, 9, 9, 13, 0, 0, 0] = true := by
  have h := read_block_spec [6, 0, 0, 0, 12, 0, 0, 0, 9, 9, 9, 9, 13, 0, 0, 0] 12
    (by decide) (by decide) (by decide)
  exact ⟨h.1, h.2.2.mpr (by decide)⟩

/-- C10: a payload hex string that is not valid hexadecimal once the `:`
and space delimiters are removed — that is, one that `bytes.fromhex`
rejects with `ValueError` — converts to the empty byte string (the bare
`except` in `hex_to_bytes`), and the record is then dropped by the
4-byte minimum-length filter of `extract_stream_packets`: no packet is
produced and no exception escapes. -/
theorem malformed_hex_skipped (s : List Char) (h : fromhex (cleanHex s) = none) :
    hex_to_bytes s = [] ∧ process_record s = .ok none := by
  have hb : hex_to_bytes s = [] := by
    simp [hex_to_bytes, h]
  refine ⟨hb, ?_⟩
  have hne : s.isEmpty = false := by
    cases s with
    | nil => exact absurd h (by decide)
    | cons a t => rfl
  simp [process_record, hne, hb]

/-- Concrete instance of the C10 theorem on the malformed hex string
`"zz:"`. -/
theorem malformed_hex_skipped_witness :
    hex_to_bytes [ 'z', 'z', ':' ] = [] ∧ process_record [ 'z', 'z', ':' ] = .ok none :=
  malformed_hex_skipped _ (by decide)
